import Mathlib

/-!
Verification of `.pre-commit-hooks/check_file_header.py`.

A file's content is modelled as a list of lines, each line a list of
characters (including its terminator), exactly as Python's `readlines`
produces it.  The pure check-and-fix logic of `fix_file_header`
(lines 37-73 of the source) is embedded as `checkFix`; the surrounding
I/O (read, write-back, exception handling, lines 30-35 and 75-86) is
embedded as `fix_file_header` over an explicit file-system model `FS`
that records which reads and writes occur and whether they succeed.
The driver `main` (lines 89-110) folds `fix_file_header` over the
argument list, skipping paths that contain `node_modules` or `.git`.
-/

namespace CheckFileHeader

/-- A line of text as Python's `readlines` yields it: the characters of the
line, terminator included. -/
abbrev Line := List Char

/-- The ASCII whitespace characters stripped by Python's `str.rstrip()`. -/
def isPyWs (c : Char) : Bool :=
  c == ' ' || c == '\t' || c == '\n' || c == '\r' || c == '\x0b' || c == '\x0c'

/-- Python's `s.rstrip()`: remove trailing whitespace characters. -/
def rstrip (l : Line) : Line :=
  (l.reverse.dropWhile isPyWs).reverse

/-- `filepath.replace('\\', '/')` (source line 27): normalize path
separators to forward slashes. -/
def normalizePath (p : Line) : Line :=
  p.map (fun c => if c == '\\' then '/' else c)

/-- `expected_comment = f"// {expected_path}"` (source line 28). -/
def expectedComment (p : Line) : Line :=
  '/' :: '/' :: ' ' :: normalizePath p

/-- The comment marker `//` tested by `first_line.startswith('//')`
(source line 49). -/
def commentMarker : Line := ['/', '/']

/-- Python's `list.insert(1, x)`: insert `x` at index 1 (appends when the
list has fewer than 2 elements). -/
def insertAt1 (x : α) : List α → List α
  | [] => [x]
  | a :: t => a :: x :: t

/-- The second-line check of `fix_file_header` (source lines 63-73): if
fewer than two lines exist, or line 1 is not blank after `rstrip`, insert
a blank line at position 1 and mark the file as needing a fix. -/
def secondCheck (lines1 : List Line) (nf1 : Bool) : List Line × Bool :=
  if lines1.length < 2 then
    (insertAt1 ['\n'] lines1, true)
  else if rstrip (lines1.getD 1 []) ≠ [] then
    (insertAt1 ['\n'] lines1, true)
  else
    (lines1, nf1)

/-- The pure check-and-fix phase of `fix_file_header` (source lines
37-73), mapping the lines read from the file to the fixed lines together
with the `needs_fix` flag.  Empty file: synthesize header and blank line
(lines 40-44).  First line without `//`: prepend header and blank line
(lines 49-54).  First line `//` comment with wrong trimmed text: replace
line 0 with the expected comment (lines 55-61).  Then the second-line
check (lines 63-73). -/
def checkFix (filepath : Line) (lines : List Line) : List Line × Bool :=
  match lines with
  | [] => ([expectedComment filepath ++ ['\n'], ['\n']], true)
  | l0 :: rest =>
    if commentMarker.isPrefixOf (rstrip l0) = false then
      secondCheck ((expectedComment filepath ++ ['\n']) :: ['\n'] :: l0 :: rest) true
    else if rstrip l0 ≠ expectedComment filepath then
      secondCheck ((expectedComment filepath ++ ['\n']) :: rest) true
    else
      secondCheck (l0 :: rest) false

/-- The file system the tool runs against: `read p` is the list of lines
of file `p`, or `none` when opening or reading `p` raises (source lines
30-35); `write p` tells whether writing `p` back succeeds or raises
(source lines 77-82). -/
structure FS where
  read : Line → Option (List Line)
  write : Line → Bool

/-- The observable I/O actions of one run: successful and failed reads
(a failed read also stands for the diagnostic printed at source line 34),
and successful and failed write-backs with the lines written (a failed
write also stands for the diagnostic printed at source line 81).
`info` is the "No files to check" message (source line 92). -/
inductive Ev where
  | readDone (p : Line)
  | readFail (p : Line)
  | writeDone (p : Line) (ls : List Line)
  | writeFail (p : Line) (ls : List Line)
  | info
deriving DecidableEq, Repr

/-- The path an event touches (`none` for the `info` message). -/
def evPath : Ev → Option Line
  | Ev.readDone p => some p
  | Ev.readFail p => some p
  | Ev.writeDone p _ => some p
  | Ev.writeFail p _ => some p
  | Ev.info => none

/-- `fix_file_header(filepath)` (source lines 15-86): returns the Python
function's return value (`true` = file already valid or unreadable or
unwritable, `false` = file was fixed) together with the trace of I/O
events.  On read failure return `True` without writing (lines 33-35); if
`needs_fix`, attempt the write-back and return `True` when it fails
(lines 80-82), `False` when it succeeds (line 84); otherwise return
`True` (line 86). -/
def fix_file_header (fs : FS) (p : Line) : Bool × List Ev :=
  match fs.read p with
  | none => (true, [Ev.readFail p])
  | some lines =>
    let r := checkFix p lines
    if r.2 then
      if fs.write p then (false, [Ev.readDone p, Ev.writeDone p r.1])
      else (true, [Ev.readDone p, Ev.writeFail p r.1])
    else (true, [Ev.readDone p])

/-- Python's `pat in s`: `pat` occurs as a contiguous substring of `s`. -/
def containsSub (pat : Line) : Line → Bool
  | [] => pat.isEmpty
  | c :: rest => pat.isPrefixOf (c :: rest) || containsSub pat rest

/-- The skip test of `main` (source line 100):
`'node_modules' in filepath or '.git' in filepath`. -/
def skip (p : Line) : Bool :=
  containsSub "node_modules".toList p || containsSub ".git".toList p

/-- The loop of `main` over the argument files (source lines 98-104):
skip excluded paths, otherwise run `fix_file_header` and conjoin its
return value into `all_valid`; the traces of the processed files are
concatenated in order. -/
def mainLoop (fs : FS) : List Line → Bool × List Ev
  | [] => (true, [])
  | p :: rest =>
    if skip p then mainLoop fs rest
    else
      let r := fix_file_header fs p
      let rec_ := mainLoop fs rest
      (r.1 && rec_.1, r.2 ++ rec_.2)

/-- `main()` (source lines 89-110): with no file arguments print
"No files to check" and return 0 (lines 91-93); otherwise return 1 when
some file was fixed (`all_valid` became false), else 0 (lines 106-110). -/
def main (fs : FS) (args : List Line) : Nat × List Ev :=
  if args.isEmpty then (0, [Ev.info])
  else
    let r := mainLoop fs args
    (if r.1 then 0 else 1, r.2)

/-! ### Concrete file systems used to instantiate the theorems -/

/-- A file system on which every read raises. -/
def fsReadNone : FS := ⟨fun _ => none, fun _ => true⟩

/-- A file system holding one headerless file `a.js`; writes succeed. -/
def fsSimple : FS :=
  ⟨fun q => if q = "a.js".toList then some ["x\n".toList] else none, fun _ => true⟩

/-- A file system holding one headerless file `src/bot.js`; every write
raises. -/
def fsWriteFails : FS :=
  ⟨fun q => if q = "src/bot.js".toList then some ["x\n".toList] else none, fun _ => false⟩

/-- A file system holding, at the path `"a "` (trailing space), the file
content produced by a first run of the tool on that path. -/
def fsSecondRun : FS :=
  ⟨fun q => if q = "a ".toList then some (checkFix "a ".toList ["x\n".toList]).1 else none,
   fun _ => true⟩

/-! ### Helper lemmas about `rstrip` -/

lemma dropWhile_append_single {α : Type} (p : α → Bool) (c : α) (h : p c = false)
    (xs : List α) : (xs ++ [c]).dropWhile p = xs.dropWhile p ++ [c] := by
  induction xs with
  | nil => simp [List.dropWhile, h]
  | cons a xs ih =>
    by_cases ha : p a = true
    · simp [List.dropWhile_cons, ha, ih]
    · simp only [Bool.not_eq_true] at ha
      simp [List.dropWhile_cons, ha]

lemma rstrip_cons_not_ws {c : Char} (h : isPyWs c = false) (l : Line) :
    rstrip (c :: l) = c :: rstrip l := by
  simp [rstrip, List.reverse_cons, dropWhile_append_single isPyWs c h]

lemma rstrip_append_ws {c : Char} (h : isPyWs c = true) (l : Line) :
    rstrip (l ++ [c]) = rstrip l := by
  simp [rstrip, List.reverse_append, List.dropWhile_cons, h]

lemma rstrip_newline : rstrip ['\n'] = [] := by decide

lemma dropWhile_idem {α : Type} (p : α → Bool) (xs : List α) :
    (xs.dropWhile p).dropWhile p = xs.dropWhile p := by
  induction xs with
  | nil => rfl
  | cons a xs ih =>
    by_cases ha : p a = true
    · simp [List.dropWhile_cons, ha, ih]
    · simp only [Bool.not_eq_true] at ha
      simp [List.dropWhile_cons, ha]

lemma rstrip_idem (l : Line) : rstrip (rstrip l) = rstrip l := by
  simp [rstrip, List.reverse_reverse, dropWhile_idem]

lemma rstrip_header (p : Line) :
    rstrip (expectedComment p ++ ['\n']) = rstrip (expectedComment p) :=
  rstrip_append_ws (by decide) _

lemma marker_isPrefixOf_rstrip_expected (p : Line) :
    commentMarker.isPrefixOf (rstrip (expectedComment p)) = true := by
  have h : isPyWs '/' = false := by decide
  rw [expectedComment, rstrip_cons_not_ws h, rstrip_cons_not_ws h]
  simp [commentMarker, List.isPrefixOf]

lemma marker_isPrefixOf_expected (p : Line) :
    commentMarker.isPrefixOf (expectedComment p) = true := by
  simp [commentMarker, expectedComment, List.isPrefixOf]

/-! ### Helper lemmas about `secondCheck` and `checkFix` -/

lemma secondCheck_cons_cons (l0 l1 : Line) (rest : List Line) (nf : Bool) :
    secondCheck (l0 :: l1 :: rest) nf =
      if rstrip l1 ≠ [] then (l0 :: ['\n'] :: l1 :: rest, true)
      else (l0 :: l1 :: rest, nf) := by
  have hlen : ¬ (l0 :: l1 :: rest).length < 2 := by simp
  rw [secondCheck, if_neg hlen]
  simp [insertAt1, List.getD]

lemma secondCheck_singleton (l0 : Line) (nf : Bool) :
    secondCheck [l0] nf = ([l0, ['\n']], true) := by
  rw [secondCheck, if_pos (by simp)]
  rfl

/-- Shape of the lines held after the check-and-fix phase, for any path
and any input: at least two lines, line 0 `rstrip`-equal to the
`rstrip`ped expected comment, line 1 blank, and all input lines except
line 0 kept in order as a suffix starting at index 1, 2 or 3. -/
lemma checkFix_shape (p : Line) (lines : List Line) :
    ∃ o0 o1 orest, (checkFix p lines).1 = o0 :: o1 :: orest ∧
      rstrip o0 = rstrip (expectedComment p) ∧
      rstrip o1 = [] ∧
      ∃ j, j ≤ 3 ∧ List.drop j (o0 :: o1 :: orest) = lines.drop 1 := by
  cases lines with
  | nil =>
    exact ⟨expectedComment p ++ ['\n'], ['\n'], [], rfl, rstrip_header p,
      rstrip_newline, 2, by omega, rfl⟩
  | cons l0 rest =>
    rw [checkFix]
    by_cases hpre : commentMarker.isPrefixOf (rstrip l0) = false
    · rw [if_pos hpre, secondCheck_cons_cons]
      rw [if_neg (by simp [rstrip_newline])]
      exact ⟨expectedComment p ++ ['\n'], ['\n'], l0 :: rest, rfl, rstrip_header p,
        rstrip_newline, 3, by omega, rfl⟩
    · rw [if_neg hpre]
      by_cases hne : rstrip l0 ≠ expectedComment p
      · rw [if_pos hne]
        cases rest with
        | nil =>
          rw [secondCheck_singleton]
          exact ⟨expectedComment p ++ ['\n'], ['\n'], [], rfl, rstrip_header p,
            rstrip_newline, 2, by omega, rfl⟩
        | cons l1 rs =>
          rw [secondCheck_cons_cons]
          by_cases hb : rstrip l1 ≠ []
          · rw [if_pos hb]
            exact ⟨expectedComment p ++ ['\n'], ['\n'], l1 :: rs, rfl, rstrip_header p,
              rstrip_newline, 2, by omega, rfl⟩
          · rw [if_neg hb]
            push_neg at hb
            exact ⟨expectedComment p ++ ['\n'], l1, rs, rfl, rstrip_header p, hb, 1,
              by omega, rfl⟩
      · push_neg at hne
        rw [if_neg (by simpa using hne)]
        have h0 : rstrip l0 = rstrip (expectedComment p) := by
          rw [hne]; rw [← hne, rstrip_idem]
        cases rest with
        | nil =>
          rw [secondCheck_singleton]
          exact ⟨l0, ['\n'], [], rfl, h0, rstrip_newline, 2, by omega, rfl⟩
        | cons l1 rs =>
          rw [secondCheck_cons_cons]
          by_cases hb : rstrip l1 ≠ []
          · rw [if_pos hb]
            exact ⟨l0, ['\n'], l1 :: rs, rfl, h0, rstrip_newline, 2, by omega, rfl⟩
          · rw [if_neg hb]
            push_neg at hb
            exact ⟨l0, l1, rs, rfl, h0, hb, 1, by omega, rfl⟩

/-! ### Claim theorems: the pure check-and-fix phase -/

/-- C1 (counterexample): for the file `["// old.js\n", "x\n"]` at path
`src/bot.js`, the first line starts with `//` and its trimmed text differs
from the expected header, yet processing does not only change line 0: it
also inserts a blank line, so the output has 3 lines where the input had
2. -/
theorem C1_counterexample :
    commentMarker.isPrefixOf (rstrip "// old.js\n".toList) = true ∧
    rstrip "// old.js\n".toList ≠ expectedComment "src/bot.js".toList ∧
    (checkFix "src/bot.js".toList ["// old.js\n".toList, "x\n".toList]).1 =
      ["// src/bot.js\n".toList, "\n".toList, "x\n".toList] ∧
    (checkFix "src/bot.js".toList ["// old.js\n".toList, "x\n".toList]).1.length ≠ 2 := by
  decide

/-- C1 (amended): for every file whose first line starts with `//` but
whose right-trimmed text differs from the expected header, AND whose
second line exists and is blank after right-trimming, processing changes
only the first line's text, replacing it with the expected header; no
other line is added, removed, or altered. -/
theorem C1_wrong_path_only_line0_changes (p l0 l1 : Line) (rest : List Line)
    (h0 : commentMarker.isPrefixOf (rstrip l0) = true)
    (hne : rstrip l0 ≠ expectedComment p)
    (h1 : rstrip l1 = []) :
    checkFix p (l0 :: l1 :: rest) = ((expectedComment p ++ ['\n']) :: l1 :: rest, true) := by
  rw [checkFix, if_neg (by simp [h0]), if_pos hne, secondCheck_cons_cons,
    if_neg (by simp [h1])]

/-- C1 (witness): the amended theorem at the spec's concrete scenario. -/
theorem C1_witness :
    checkFix "src/bot.js".toList ["// wrong/path.js\n".toList, "\n".toList, "x = 1\n".toList]
      = ((expectedComment "src/bot.js".toList ++ ['\n'])
          :: "\n".toList :: ["x = 1\n".toList], true) :=
  C1_wrong_path_only_line0_changes _ _ _ _ (by decide) (by decide) (by decide)

/-- C2 (counterexample): at path `src/bot.js`, the file
`["// src/bot.js  \n", "x\n"]` (correct header up to trailing spaces,
non-blank second line) is written back, and the written line 0 is
`"// src/bot.js  \n"`, not exactly the expected header plus terminator. -/
theorem C2_counterexample :
    (checkFix "src/bot.js".toList ["// src/bot.js  \n".toList, "x\n".toList]).2 = true ∧
    (checkFix "src/bot.js".toList ["// src/bot.js  \n".toList, "x\n".toList]).1.getD 0 []
      ≠ expectedComment "src/bot.js".toList ++ ['\n'] ∧
    (checkFix "src/bot.js".toList ["// src/bot.js  \n".toList, "x\n".toList]).1.getD 0 []
      ≠ expectedComment "src/bot.js".toList := by
  decide

/-- C2 (amended): every content the tool writes back has at least two
lines, its line 0 right-trimmed equals the right-trimmed expected header,
and its line 1 right-trimmed is empty (exact byte equality does not hold
in general, only equality up to trailing whitespace). -/
theorem C2_written_header_shape (fs : FS) (p : Line) (ls : List Line)
    (h : Ev.writeDone p ls ∈ (fix_file_header fs p).2) :
    ∃ o0 o1 orest, ls = o0 :: o1 :: orest ∧
      rstrip o0 = rstrip (expectedComment p) ∧ rstrip o1 = [] := by
  cases hr : fs.read p with
  | none => simp [fix_file_header, hr] at h
  | some lines =>
    cases hf : (checkFix p lines).2 with
    | false => simp [fix_file_header, hr, hf] at h
    | true =>
      have hls : ls = (checkFix p lines).1 := by
        cases hw : fs.write p with
        | false => simp [fix_file_header, hr, hf, hw] at h
        | true => simp [fix_file_header, hr, hf, hw] at h; exact h
      obtain ⟨o0, o1, orest, hout, h0, h1, -⟩ := checkFix_shape p lines
      exact ⟨o0, o1, orest, hls.trans hout, h0, h1⟩

/-- C2 (witness): the amended theorem for the write that `fsSimple`
receives on `a.js`. -/
theorem C2_witness :
    (checkFix "a.js".toList ["x\n".toList]).1.length ≥ 2 ∧
    rstrip ((checkFix "a.js".toList ["x\n".toList]).1.getD 0 [])
      = rstrip (expectedComment "a.js".toList) ∧
    rstrip ((checkFix "a.js".toList ["x\n".toList]).1.getD 1 []) = [] := by
  obtain ⟨o0, o1, orest, hout, h0, h1⟩ :=
    C2_written_header_shape fsSimple "a.js".toList
      (checkFix "a.js".toList ["x\n".toList]).1 (by decide)
  rw [hout]
  exact ⟨by simp, by simpa using h0, by simpa using h1⟩

/-- C6 (counterexample): at the path `"a "` (trailing space), a second run
of the tool on the output of a first run reports the file as needing a fix
again (`needs_fix = true`), and `fix_file_header` on the written file
returns the `Fixed` value `false`, not "already valid"; the claim's
universally quantified idempotence fails. -/
theorem C6_counterexample :
    (checkFix "a ".toList (checkFix "a ".toList ["x\n".toList]).1).2 = true ∧
    (fix_file_header fsSecondRun "a ".toList).1 = false := by
  decide

/-- C6 (amended): (a) for every file whose first line right-trimmed
already equals the expected header and whose second line is blank,
processing is a no-op returning "already valid"; (b) idempotence holds
for every file whose expected header carries no trailing whitespace
(i.e. `rstrip` leaves it unchanged — true of every real path not ending
in whitespace): a second run returns the first run's output unchanged and
reports it valid. -/
theorem C6_noop_and_idempotent :
    (∀ p l0 l1 rest, rstrip l0 = expectedComment p → rstrip l1 = [] →
        checkFix p (l0 :: l1 :: rest) = (l0 :: l1 :: rest, false)) ∧
    (∀ p lines, rstrip (expectedComment p) = expectedComment p →
        checkFix p (checkFix p lines).1 = ((checkFix p lines).1, false)) := by
  have ha : ∀ p l0 l1 rest, rstrip l0 = expectedComment p → rstrip l1 = [] →
      checkFix p (l0 :: l1 :: rest) = (l0 :: l1 :: rest, false) := by
    intro p l0 l1 rest h0 h1
    have hpre : commentMarker.isPrefixOf (rstrip l0) = true := by
      rw [h0]; exact marker_isPrefixOf_expected p
    rw [checkFix, if_neg (by simp [hpre]), if_neg (by simp [h0]),
      secondCheck_cons_cons, if_neg (by simp [h1])]
  refine ⟨ha, fun p lines hp => ?_⟩
  obtain ⟨o0, o1, orest, hout, h0, h1, -⟩ := checkFix_shape p lines
  rw [hout]
  exact ha p o0 o1 orest (h0.trans hp) h1

/-- C6 (witness): both parts of the amended theorem at the spec's
concrete scenario path `src/bot.js`. -/
theorem C6_witness :
    checkFix "src/bot.js".toList ["// src/bot.js\n".toList, "\n".toList, "x = 1\n".toList]
      = (["// src/bot.js\n".toList, "\n".toList, "x = 1\n".toList], false) ∧
    checkFix "src/bot.js".toList (checkFix "src/bot.js".toList ["x\n".toList]).1
      = ((checkFix "src/bot.js".toList ["x\n".toList]).1, false) :=
  ⟨C6_noop_and_idempotent.1 "src/bot.js".toList _ _ _ (by decide) (by decide),
   C6_noop_and_idempotent.2 "src/bot.js".toList _ (by decide)⟩

/-- C7: for every non-empty file whose first line does not start with
`//` (after right-trimming, which cannot affect a `//` prefix),
processing prepends exactly the expected header and a blank line; every
original line appears unchanged after them, in order. -/
theorem C7_prepends_header_and_blank (p l0 : Line) (rest : List Line)
    (h : commentMarker.isPrefixOf (rstrip l0) = false) :
    checkFix p (l0 :: rest)
      = ((expectedComment p ++ ['\n']) :: ['\n'] :: l0 :: rest, true) := by
  rw [checkFix, if_pos h, secondCheck_cons_cons, if_neg (by simp [rstrip_newline])]

/-- C7 (witness): the spec's concrete scenario, a one-line file at path
`src/bot.js`. -/
theorem C7_witness :
    checkFix "src/bot.js".toList ["console.log(hi)\n".toList]
      = ((expectedComment "src/bot.js".toList ++ ['\n'])
          :: ['\n'] :: "console.log(hi)\n".toList :: [], true) :=
  C7_prepends_header_and_blank _ _ _ (by decide)

/-- C8: for every file whose first line is a `//` comment (kept if its
trimmed text equals the expected header, replaced by the expected header
otherwise) and whose second line is non-blank after right-trimming,
exactly one blank line is inserted at position 1; all subsequent lines
shift down one place unmodified. -/
theorem C8_inserts_blank_line (p l0 l1 : Line) (rest : List Line)
    (h0 : commentMarker.isPrefixOf (rstrip l0) = true)
    (h1 : rstrip l1 ≠ []) :
    checkFix p (l0 :: l1 :: rest)
      = ((if rstrip l0 = expectedComment p then l0 else expectedComment p ++ ['\n'])
          :: ['\n'] :: l1 :: rest, true) := by
  rw [checkFix, if_neg (by simp [h0])]
  by_cases hne : rstrip l0 ≠ expectedComment p
  · rw [if_pos hne, secondCheck_cons_cons, if_pos h1, if_neg hne]
  · push_neg at hne
    rw [if_neg (by simp [hne]), secondCheck_cons_cons, if_pos h1, if_pos hne]

/-- C8 (witness): a file with correct header and non-blank second line at
path `src/bot.js`. -/
theorem C8_witness :
    checkFix "src/bot.js".toList ["// src/bot.js\n".toList, "x = 1\n".toList]
      = ((if rstrip "// src/bot.js\n".toList = expectedComment "src/bot.js".toList
            then "// src/bot.js\n".toList else expectedComment "src/bot.js".toList ++ ['\n'])
          :: ['\n'] :: "x = 1\n".toList :: [], true) :=
  C8_inserts_blank_line _ _ _ _ (by decide) (by decide)

/-- C9 (counterexample): at the path `"a "` (trailing space in the path,
hence in the expected header), the lines held after the check-and-fix
phase of an empty file have line 0 right-trimmed equal to `"// a"`, which
differs from the expected header `"// a "`; the invariant as stated fails. -/
theorem C9_counterexample :
    rstrip ((checkFix "a ".toList []).1.getD 0 []) ≠ expectedComment "a ".toList := by
  decide

/-- C9 (amended): for every path whose expected header carries no
trailing whitespace and every readable line sequence, the lines held
after the check-and-fix phase satisfy the validity invariant: at least
two lines, line 0 right-trimmed equal to the expected header, line 1
right-trimmed empty, and every original line other than line 0 preserved
in order as the suffix starting at some index `j ≤ 3` (lines are only
inserted at the front or line 0 replaced, never deleted). -/
theorem C9_invariant (p : Line) (lines : List Line)
    (hp : rstrip (expectedComment p) = expectedComment p) :
    ∃ o0 o1 orest, (checkFix p lines).1 = o0 :: o1 :: orest ∧
      rstrip o0 = expectedComment p ∧
      rstrip o1 = [] ∧
      ∃ j, j ≤ 3 ∧ List.drop j (o0 :: o1 :: orest) = lines.drop 1 := by
  obtain ⟨o0, o1, orest, hout, h0, h1, j, hj, hdrop⟩ := checkFix_shape p lines
  exact ⟨o0, o1, orest, hout, h0.trans hp, h1, j, hj, hdrop⟩

/-- C9 (witness): the invariant evaluated on a headerless one-line file at
path `src/bot.js`. -/
theorem C9_witness :
    2 ≤ (checkFix "src/bot.js".toList ["x\n".toList]).1.length ∧
    rstrip ((checkFix "src/bot.js".toList ["x\n".toList]).1.getD 0 [])
      = expectedComment "src/bot.js".toList := by
  obtain ⟨o0, o1, orest, hout, h0, -⟩ :=
    C9_invariant "src/bot.js".toList ["x\n".toList] (by decide)
  rw [hout]
  exact ⟨by simp, by simpa using h0⟩

/-! ### Helper lemmas about the driver -/

lemma fix_file_header_evPath (fs : FS) (p : Line) :
    ∀ e ∈ (fix_file_header fs p).2, evPath e = some p := by
  cases hr : fs.read p with
  | none => simp [fix_file_header, hr, evPath]
  | some lines =>
    cases hf : (checkFix p lines).2 with
    | false => simp [fix_file_header, hr, hf, evPath]
    | true =>
      cases hw : fs.write p with
      | false => simp [fix_file_header, hr, hf, hw, evPath]
      | true => simp [fix_file_header, hr, hf, hw, evPath]

lemma mainLoop_evPath (fs : FS) (args : List Line) :
    ∀ e ∈ (mainLoop fs args).2, ∃ q, evPath e = some q ∧ skip q = false ∧ q ∈ args := by
  induction args with
  | nil => simp [mainLoop]
  | cons p rest ih =>
    intro e he
    by_cases hs : skip p = true
    · rw [mainLoop, if_pos hs] at he
      obtain ⟨q, h1, h2, h3⟩ := ih e he
      exact ⟨q, h1, h2, List.mem_cons_of_mem _ h3⟩
    · simp only [Bool.not_eq_true] at hs
      rw [mainLoop, if_neg (by simp [hs])] at he
      rcases List.mem_append.1 he with hfix | hrest
      · exact ⟨p, fix_file_header_evPath fs p e hfix, hs, List.mem_cons_self _ _⟩
      · obtain ⟨q, h1, h2, h3⟩ := ih e hrest
        exact ⟨q, h1, h2, List.mem_cons_of_mem _ h3⟩

lemma mainLoop_false_iff (fs : FS) (args : List Line) :
    (mainLoop fs args).1 = false ↔
      ∃ p ∈ args, skip p = false ∧ (fix_file_header fs p).1 = false := by
  induction args with
  | nil => simp [mainLoop]
  | cons p rest ih =>
    by_cases hs : skip p = true
    · rw [mainLoop, if_pos hs, ih]
      constructor
      · rintro ⟨q, hq1, hq2, hq3⟩
        exact ⟨q, List.mem_cons_of_mem _ hq1, hq2, hq3⟩
      · rintro ⟨q, hq1, hq2, hq3⟩
        rcases List.mem_cons.1 hq1 with rfl | hq1
        · rw [hs] at hq2; cases hq2
        · exact ⟨q, hq1, hq2, hq3⟩
    · simp only [Bool.not_eq_true] at hs
      rw [mainLoop, if_neg (by simp [hs])]
      simp only [Bool.and_eq_false_iff]
      constructor
      · rintro (hfix | hrest)
        · exact ⟨p, List.mem_cons_self _ _, hs, hfix⟩
        · obtain ⟨q, hq1, hq2, hq3⟩ := ih.1 hrest
          exact ⟨q, List.mem_cons_of_mem _ hq1, hq2, hq3⟩
      · rintro ⟨q, hq1, hq2, hq3⟩
        rcases List.mem_cons.1 hq1 with rfl | hq1
        · exact Or.inl hq3
        · exact Or.inr (ih.2 ⟨q, hq1, hq2, hq3⟩)

lemma main_nil (fs : FS) : main fs [] = (0, [Ev.info]) := rfl

lemma main_of_ne (fs : FS) (l : List Line) (h : l.isEmpty = false) :
    main fs l = (if (mainLoop fs l).1 = true then 0 else 1, (mainLoop fs l).2) := by
  rw [main, if_neg (by simp [h])]

lemma mainLoop_filter (fs : FS) (args : List Line) :
    mainLoop fs (args.filter (fun q => !skip q)) = mainLoop fs args := by
  induction args with
  | nil => rfl
  | cons p rest ih =>
    by_cases hs : skip p = true
    · rw [List.filter_cons, if_neg (by simp [hs]), ih, mainLoop, if_pos hs]
    · simp only [Bool.not_eq_true] at hs
      rw [List.filter_cons, if_pos (by simp [hs])]
      rw [mainLoop, if_neg (by simp [hs]), mainLoop, if_neg (by simp [hs]), ih]

/-! ### Claim theorems: error handling and the driver -/

/-- C3 (counterexample): on `fsWriteFails`, where `src/bot.js` needs a
fix but every write raises, `fix_file_header` returns `true` — the
"already valid" value — not `false` (the `Fixed` value, the one that
makes the run's exit code non-zero); accordingly the run's exit code is
0, contradicting the claim. -/
theorem C3_counterexample :
    (checkFix "src/bot.js".toList ["x\n".toList]).2 = true ∧
    (fix_file_header fsWriteFails "src/bot.js".toList).1 = true ∧
    (fix_file_header fsWriteFails "src/bot.js".toList).1 ≠ false ∧
    (main fsWriteFails ["src/bot.js".toList]).1 = 0 := by
  decide

/-- C3 (amended): for every file where a fix was decided but the
write-back raises, `fix_file_header` returns `true` — the
"valid/Unchanged" value, so the failed write never makes the exit code
non-zero — while the trace still records the attempted write of the
fixed lines (whose printed messages claimed the file was fixed). -/
theorem C3_write_error_returns_unchanged (fs : FS) (p : Line) (lines : List Line)
    (hr : fs.read p = some lines)
    (hf : (checkFix p lines).2 = true)
    (hw : fs.write p = false) :
    (fix_file_header fs p).1 = true ∧
    Ev.writeFail p (checkFix p lines).1 ∈ (fix_file_header fs p).2 := by
  simp [fix_file_header, hr, hf, hw]

/-- C3 (witness): the amended theorem on `fsWriteFails` at `src/bot.js`. -/
theorem C3_witness :
    (fix_file_header fsWriteFails "src/bot.js".toList).1 = true ∧
    Ev.writeFail "src/bot.js".toList (checkFix "src/bot.js".toList ["x\n".toList]).1
      ∈ (fix_file_header fsWriteFails "src/bot.js".toList).2 :=
  C3_write_error_returns_unchanged fsWriteFails "src/bot.js".toList ["x\n".toList]
    (by decide) (by decide) (by decide)

/-- C4: for every file whose read raises, `fix_file_header` returns the
"valid/Unchanged" value `true` with a trace holding only the failed read
(the printed diagnostic), never a write; and inside the driver loop such
a file leaves the validity aggregate and the processing of the remaining
files untouched, so a read failure alone never makes the exit code
non-zero and never aborts the run. -/
theorem C4_read_error_is_unchanged (fs : FS) (p : Line) (rest : List Line)
    (h : fs.read p = none) :
    fix_file_header fs p = (true, [Ev.readFail p]) ∧
    (skip p = false →
      mainLoop fs (p :: rest)
        = ((mainLoop fs rest).1, Ev.readFail p :: (mainLoop fs rest).2)) := by
  have h1 : fix_file_header fs p = (true, [Ev.readFail p]) := by
    simp [fix_file_header, h]
  refine ⟨h1, fun hs => ?_⟩
  rw [mainLoop, if_neg (by simp [hs]), h1]
  simp

/-- C4 (witness): the theorem on `fsReadNone` at `a.js`. -/
theorem C4_witness :
    fix_file_header fsReadNone "a.js".toList = (true, [Ev.readFail "a.js".toList]) ∧
    mainLoop fsReadNone ["a.js".toList]
      = ((mainLoop fsReadNone []).1, Ev.readFail "a.js".toList :: (mainLoop fsReadNone []).2) :=
  ⟨(C4_read_error_is_unchanged fsReadNone "a.js".toList [] rfl).1,
   (C4_read_error_is_unchanged fsReadNone "a.js".toList [] rfl).2 (by decide)⟩

/-- C5: `main` returns exit code 1 iff some non-skipped argument file's
outcome was `Fixed` (`fix_file_header` returned `false`); it returns 0
iff no such file exists — in particular when every processed file was
already valid — and with no file arguments it returns 0 at once, with
the "No files to check" message in the trace. -/
theorem C5_exit_code (fs : FS) (args : List Line) :
    ((main fs args).1 = 1 ↔
      ∃ p ∈ args, skip p = false ∧ (fix_file_header fs p).1 = false) ∧
    ((main fs args).1 = 0 ↔
      ¬ ∃ p ∈ args, skip p = false ∧ (fix_file_header fs p).1 = false) ∧
    (args = [] → (main fs args).1 = 0 ∧ Ev.info ∈ (main fs args).2) := by
  rcases args with _ | ⟨a, as⟩
  · refine ⟨by simp [main_nil], by simp [main_nil], fun _ => by simp [main_nil]⟩
  · have hmain : (main fs (a :: as)).1
        = if (mainLoop fs (a :: as)).1 = true then 0 else 1 := by
      rw [main_of_ne fs _ (by simp)]
    cases hv : (mainLoop fs (a :: as)).1 with
    | false =>
      have h1 : (main fs (a :: as)).1 = 1 := by rw [hmain, hv]; rfl
      have hex := (mainLoop_false_iff fs (a :: as)).1 hv
      refine ⟨⟨fun _ => hex, fun _ => h1⟩,
        iff_of_false (by simp [h1]) (not_not_intro hex),
        fun hc => by simp at hc⟩
    | true =>
      have h0 : (main fs (a :: as)).1 = 0 := by rw [hmain, hv]; rfl
      have hnex : ¬ ∃ p ∈ a :: as, skip p = false ∧ (fix_file_header fs p).1 = false := by
        intro hc
        rw [← mainLoop_false_iff fs (a :: as), hv] at hc
        exact Bool.noConfusion hc
      refine ⟨iff_of_false (by simp [h0]) hnex, iff_of_true h0 hnex,
        fun hc => by simp at hc⟩

/-- C5 (witness): on `fsSimple`, the single headerless file `a.js` yields
exit code 1, and the empty argument list yields exit code 0. -/
theorem C5_witness :
    (main fsSimple ["a.js".toList]).1 = 1 ∧ (main fsSimple []).1 = 0 :=
  ⟨(C5_exit_code fsSimple ["a.js".toList]).1.mpr
      ⟨"a.js".toList, by decide, by decide, by decide⟩,
   ((C5_exit_code fsSimple []).2.2 rfl).1⟩

/-- C10: every path containing the substring `node_modules` or the
substring `.git` anywhere — even when it is not a complete directory
segment — is skipped by `main`: no I/O event of any run touches it, and
the exit code equals that of the run on the arguments with all skipped
paths removed.  Concretely, `.github/workflows/ci.yml` (where `.git` is
not a segment) and `budget.gitlog` are skipped, while `widget.js` is
processed. -/
theorem C10_skipped_paths_untouched (fs : FS) (args : List Line) (p : Line)
    (h : skip p = true) :
    (∀ e ∈ (main fs args).2, evPath e ≠ some p) ∧
    (main fs args).1 = (main fs (args.filter (fun q => !skip q))).1 ∧
    skip ".github/workflows/ci.yml".toList = true ∧
    skip "widget.js".toList = false ∧
    skip "budget.gitlog".toList = true := by
  refine ⟨?_, ?_, by decide, by decide, by decide⟩
  · intro e he heq
    rcases args with _ | ⟨a, as⟩
    · simp only [main_nil, List.mem_singleton] at he
      rw [he] at heq
      simp [evPath] at heq
    · have h2 : (main fs (a :: as)).2 = (mainLoop fs (a :: as)).2 := by
        rw [main_of_ne fs _ (by simp)]
      rw [h2] at he
      obtain ⟨q, hq1, hq2, -⟩ := mainLoop_evPath fs (a :: as) e he
      rw [hq1] at heq
      rw [Option.some.inj heq, h] at hq2
      exact Bool.noConfusion hq2
  · rcases args with _ | ⟨a, as⟩
    · rfl
    · cases hfe : ((a :: as).filter (fun q => !skip q)).isEmpty with
      | true =>
        have hfnil : (a :: as).filter (fun q => !skip q) = [] :=
          List.isEmpty_iff.1 hfe
        have hloop : mainLoop fs (a :: as) = (true, []) := by
          rw [← mainLoop_filter fs (a :: as), hfnil]; rfl
        rw [main_of_ne fs _ (by simp), hloop, hfnil, main_nil]
        rfl
      | false =>
        rw [main_of_ne fs _ (by simp), main_of_ne fs _ hfe,
          mainLoop_filter fs (a :: as)]

/-- C10 (witness): the theorem applied with the skipped path
`node_modules/x.js`; the exit code on `[node_modules/x.js, a.js]` equals
the exit code on the filtered list. -/
theorem C10_witness :
    skip ".github/workflows/ci.yml".toList = true ∧
    skip "widget.js".toList = false ∧
    (main fsSimple ["node_modules/x.js".toList, "a.js".toList]).1
      = (main fsSimple (["node_modules/x.js".toList, "a.js".toList].filter
          (fun q => !skip q))).1 := by
  have h := C10_skipped_paths_untouched fsSimple
    ["node_modules/x.js".toList, "a.js".toList] "node_modules/x.js".toList (by decide)
  exact ⟨h.2.2.1, h.2.2.2.1, h.2.1⟩

end CheckFileHeader
